import Mathlib

/-!
Verification of the loudness-analysis pipeline in `audio_plot_graph.py`.

The numeric core is embedded shallowly: samples, times and thresholds are
rational numbers (idealizing Python floats as exact arithmetic), decibel
values are real numbers because the conversion uses `log10`.  The Python
`int()` truncation, the numpy `ceil`, slicing, `np.convolve` in mode same
and the control flow of `plot_loudness` / `main` (try/except/finally) are
modelled explicitly; external effects (matplotlib drawing, file I/O) are
parameters recording their observable outcomes.
-/

/-- Python `int()` applied to a real value: truncation toward zero. -/
def pyTrunc (q : ℚ) : ℤ := if 0 ≤ q then ⌊q⌋ else ⌈q⌉

/-- The slice `audio[start:end]` with `start = i*frame_size` and
`end = min((i+1)*frame_size, len(audio))`, as in the loop body of
`compute_loudness`. -/
def frameSlice (audio : List ℚ) (fs : ℕ) (i : ℕ) : List ℚ :=
  (audio.take (min ((i + 1) * fs) audio.length)).drop (i * fs)

/-- `np.mean(frame.astype(float) ** 2)`: mean of squared samples. -/
def meanSq (frame : List ℚ) : ℚ :=
  ((frame.map fun s => s ^ 2).sum) / frame.length

/-- `rms = np.sqrt(np.mean(frame.astype(float) ** 2))`. -/
noncomputable def rmsOf (frame : List ℚ) : ℝ :=
  Real.sqrt (meanSq frame)

/-- The decibel conversion applied to one frame:
`-100` if `rms < 1e-10`, else `20 * log10(rms / 2**15)`. -/
noncomputable def dbOf (frame : List ℚ) : ℝ :=
  if rmsOf frame < 1 / 10 ^ 10 then -100
  else 20 * Real.logb 10 (rmsOf frame / 2 ^ 15)

/-- `compute_loudness(audio, sr, frame_duration)` from
`audio_plot_graph.py`.  `frame_size = int(sr * frame_duration)`;
when it is `0` the expression `len(audio) / frame_size` raises
`ZeroDivisionError`, caught by the surrounding `try` and re-raised as a
`RuntimeError` (the `.error` branch).  Otherwise
`n_frames = int(np.ceil(len(audio) / frame_size))` (empty loop when
nonpositive), each nonempty slice contributes `start / sr` to `times`
and its decibel value to `loudness_db`; empty slices are skipped. -/
noncomputable def compute_loudness (audio : List ℚ) (sr : ℤ)
    (frame_duration : ℚ) : Except String (List ℚ × List ℝ) :=
  let frame_size : ℤ := pyTrunc ((sr : ℚ) * frame_duration)
  if frame_size = 0 then
    .error "Error in compute_loudness: division by zero"
  else
    let n_frames : ℤ := ⌈(audio.length : ℚ) / (frame_size : ℚ)⌉
    let fs : ℕ := frame_size.toNat
    let pairs : List (ℚ × ℝ) :=
      (List.range n_frames.toNat).filterMap fun i =>
        let frame := frameSlice audio fs i
        if frame.length = 0 then none
        else some (((i * fs : ℕ) : ℚ) / (sr : ℚ), dbOf frame)
    .ok (pairs.map Prod.fst, pairs.map Prod.snd)

/-- `np.convolve(a, v)` in mode full: entry `n` is
`sum_j a[j] * v[n - j]` over the indices where both factors exist. -/
def npConvolveFull {α : Type} [Field α] (a v : List α) : List α :=
  List.ofFn fun n : Fin (a.length + v.length - 1) =>
    ∑ j ∈ Finset.range a.length,
      if j ≤ (n : ℕ) then a.getD j 0 * v.getD ((n : ℕ) - j) 0 else 0

/-- `np.convolve(a, v)` in mode same: the central `max(len(a), len(v))`
entries of the full convolution, starting at `(min(len(a), len(v)) - 1) / 2`. -/
def npConvolveSame {α : Type} [Field α] (a v : List α) : List α :=
  ((npConvolveFull a v).drop ((min a.length v.length - 1) / 2)).take
    (max a.length v.length)

/-- `moving_average(data, window_size) =
np.convolve(data, np.ones(window_size)/window_size)` in mode same.
`np.convolve` raises `ValueError` when either operand is empty
(empty `data`, or `window_size = 0`); that exception path is the
`.error` branch. -/
def moving_average {α : Type} [Field α] (data : List α) (window_size : ℕ) :
    Except String (List α) :=
  if data.length = 0 ∨ window_size = 0 then
    .error "ValueError: convolve operand cannot be empty"
  else
    .ok (npConvolveSame data
      (List.replicate window_size ((window_size : α)⁻¹)))

/-- A highlight specification: the keyword arguments of
`highlight_audio_section` (`ax`, `times`, `loudness` are passed
separately). -/
structure HighlightSpec (α : Type) where
  start_time : α
  end_time : α
  threshold : α
  color : String
  alpha : α
  above : Bool

/-- The boolean `condition` array computed inside
`highlight_audio_section`: entry `i` is
`times[i] >= start_time and times[i] <= end_time and`
(`loudness[i] > threshold` when `above`, else `loudness[i] < threshold`). -/
def highlight_condition {α : Type} [LinearOrder α] (times loudness : List α)
    (s : HighlightSpec α) : List Bool :=
  (times.zip loudness).map fun p =>
    if s.above then
      decide (s.start_time ≤ p.1) && decide (p.1 ≤ s.end_time) &&
        decide (s.threshold < p.2)
    else
      decide (s.start_time ≤ p.1) && decide (p.1 ≤ s.end_time) &&
        decide (p.2 < s.threshold)

/-- `highlight_audio_section`: computes the condition mask and fills the
region with the color of the spec.  The only failure source is the drawing
call (e.g. a malformed color token), modelled by the `colorOk` oracle;
any such exception is re-raised as a `RuntimeError` (the `.error`
branch), to be caught by the per-spec handler of the caller. -/
def highlight_audio_section {α : Type} [LinearOrder α]
    (colorOk : String → Except String Unit) (times loudness : List α)
    (s : HighlightSpec α) : Except String (List Bool) :=
  match colorOk s.color with
  | .ok _ => .ok (highlight_condition times loudness s)
  | .error e => .error ("Error highlighting audio section: " ++ e)

/-- Observable outcome of one `plot_loudness` call that ran to
completion: the base curve and reference lines were drawn, `overlays`
records each successfully drawn highlight (spec and its mask) in order,
`warnings` the per-spec failures that were caught and printed, `saved`
whether `savefig` succeeded and `save_error` its printed failure. -/
structure RenderLog (α : Type) where
  base_curve : Bool
  overlays : List (HighlightSpec α × List Bool)
  warnings : List String
  saved : Bool
  save_error : Option String

/-- `plot_loudness(times, loudness, save_path, highlights)`.  The base
curve and the two reference lines are drawn first; each highlight is
attempted under its own `try`, a failure being printed as a warning and
the spec skipped; the axis setup then evaluates `times[-1]`, which on an
empty `times` raises `IndexError`, caught by the outer `try` and
re-raised as a `RuntimeError` (the `.error` branch); finally `savefig`
failures are printed but not raised.  `saveResult` is the outcome
`plt.savefig` would have. -/
def plot_loudness {α : Type} [LinearOrder α]
    (colorOk : String → Except String Unit) (saveResult : Except String Unit)
    (times loudness : List α) (save_path : Option String)
    (highlights : List (HighlightSpec α)) : Except String (RenderLog α) :=
  let results := highlights.map fun s =>
    (s, highlight_audio_section colorOk times loudness s)
  let overlays := results.filterMap fun p =>
    match p.2 with
    | .ok m => some (p.1, m)
    | .error _ => none
  let warnings := results.filterMap fun p =>
    match p.2 with
    | .error e => some ("Warning: Failed to highlight section: " ++ e)
    | .ok _ => none
  match times.getLast? with
  | none =>
    .error "Error occurred while plotting loudness: index -1 is out of bounds"
  | some _ =>
    match save_path with
    | none => .ok ⟨true, overlays, warnings, false, none⟩
    | some _ =>
      match saveResult with
      | .ok _ => .ok ⟨true, overlays, warnings, true, none⟩
      | .error e =>
        .ok ⟨true, overlays, warnings, false,
          some ("Error saving figure: " ++ e)⟩

/-- The external effects one `main` invocation interacts with: whether
the temporary audio file already exists, the outcomes of audio
extraction, of reading the waveform, of the drawing and saving calls
inside `plot_loudness`, of `os.remove`, and the caller-supplied
highlight list.  On successful extraction the temporary file exists; on
failed extraction nothing was written, so only a pre-existing file
remains. -/
structure MainEnv where
  temp_initially_exists : Bool
  extract_result : Except String Unit
  read_result : Except String (ℤ × List ℚ)
  highlights : List (HighlightSpec ℝ)
  color_ok : String → Except String Unit
  save_result : Except String Unit
  save_path : String
  remove_result : Except String Unit

/-- The stage sequence inside the `try` block of `main`: extract, read,
`compute_loudness(audio, sr, frame_duration=0.1)`,
`moving_average(loudness_db, 3)`, `plot_loudness`. -/
noncomputable def runPipeline (env : MainEnv) : Except String (RenderLog ℝ) := do
  let _ ← env.extract_result
  let (sr, audio) ← env.read_result
  let (times, loudness_db) ← compute_loudness audio sr (1 / 10)
  let loudness_db_smooth ← moving_average loudness_db 3
  plot_loudness env.color_ok env.save_result
    (times.map fun q => (q : ℝ)) loudness_db_smooth
    (some env.save_path) env.highlights

/-- The observable outcome of one `main` invocation: the `Error in
main:` line printed by the `except` block (if any), the `Error removing
temp audio file:` line printed inside the `finally` block (if any),
whether the temporary file still exists afterwards, and whether `main`
itself raised (it never does: every exception is caught). -/
structure MainResult where
  error_logged : Option String
  cleanup_logged : Option String
  temp_exists_after : Bool
  crashed : Bool

/-- `main(video_path, output_graph_path, graph_name, highlights)`:
runs the pipeline inside `try`, prints any failure, and in `finally`
removes the temporary audio file if it exists, printing (not raising) a
removal failure. -/
noncomputable def main (env : MainEnv) : MainResult :=
  let error_logged : Option String :=
    match runPipeline env with
    | .error e => some ("Error in main: " ++ e)
    | .ok _ => none
  let temp_exists : Bool := env.temp_initially_exists || env.extract_result.isOk
  if temp_exists then
    match env.remove_result with
    | .ok _ =>
      { error_logged := error_logged, cleanup_logged := none
        temp_exists_after := false, crashed := false }
    | .error e =>
      { error_logged := error_logged
        cleanup_logged := some ("Error removing temp audio file: " ++ e)
        temp_exists_after := true, crashed := false }
  else
    { error_logged := error_logged, cleanup_logged := none
      temp_exists_after := false, crashed := false }

/-! ### Helper lemmas about `compute_loudness` -/

lemma frameSlice_length (audio : List ℚ) (fs i : ℕ) :
    (frameSlice audio fs i).length =
      min ((i + 1) * fs) audio.length - i * fs := by
  simp [frameSlice]

lemma start_lt_length {audio : List ℚ} {fs n i : ℕ}
    (hfs : 1 ≤ fs) (hn : n = (⌈(audio.length : ℚ) / (fs : ℚ)⌉).toNat)
    (hi : i < n) : i * fs < audio.length := by
  have hfs0 : (0 : ℚ) < (fs : ℚ) := by exact_mod_cast hfs
  have h1 : ((i : ℤ)) < ⌈(audio.length : ℚ) / (fs : ℚ)⌉ := by
    rw [← Int.lt_toNat, ← hn]; exact_mod_cast hi
  have h2 : (i : ℚ) < (audio.length : ℚ) / (fs : ℚ) := by
    exact_mod_cast Int.lt_ceil.mp h1
  have h3 : (i : ℚ) * (fs : ℚ) < (audio.length : ℚ) :=
    (lt_div_iff₀ hfs0).mp h2
  exact_mod_cast h3

lemma frameSlice_ne_nil {audio : List ℚ} {fs n i : ℕ}
    (hfs : 1 ≤ fs) (hn : n = (⌈(audio.length : ℚ) / (fs : ℚ)⌉).toNat)
    (hi : i < n) : (frameSlice audio fs i).length ≠ 0 := by
  rw [frameSlice_length]
  have h := start_lt_length hfs hn hi
  have h2 : (i + 1) * fs = i * fs + fs := by ring
  omega

lemma compute_loudness_ok {audio : List ℚ} {sr : ℤ} {fd : ℚ}
    (hfs : 1 ≤ pyTrunc ((sr : ℚ) * fd)) :
    compute_loudness audio sr fd =
      .ok
        ((List.range
            (⌈(audio.length : ℚ) / ((pyTrunc ((sr : ℚ) * fd)).toNat : ℚ)⌉).toNat).map
          (fun i => ((i * (pyTrunc ((sr : ℚ) * fd)).toNat : ℕ) : ℚ) / (sr : ℚ)),
        (List.range
            (⌈(audio.length : ℚ) / ((pyTrunc ((sr : ℚ) * fd)).toNat : ℚ)⌉).toNat).map
          (fun i => dbOf (frameSlice audio (pyTrunc ((sr : ℚ) * fd)).toNat i))) := by
  set FS : ℤ := pyTrunc ((sr : ℚ) * fd) with hFS
  have hne : FS ≠ 0 := by omega
  have hcast : ((FS.toNat : ℚ)) = (FS : ℚ) := by
    exact_mod_cast Int.toNat_of_nonneg (by omega)
  have hfs1 : 1 ≤ FS.toNat := by omega
  rw [compute_loudness]
  simp only [← hFS, if_neg hne, hcast]
  set n : ℕ := (⌈(audio.length : ℚ) / (FS : ℚ)⌉).toNat with hn
  have hn' : n = (⌈(audio.length : ℚ) / ((FS.toNat : ℕ) : ℚ)⌉).toNat := by
    rw [hcast]
  have hsame :
      ((List.range n).filterMap fun i =>
        let frame := frameSlice audio FS.toNat i
        if frame.length = 0 then none
        else some (((i * FS.toNat : ℕ) : ℚ) / (sr : ℚ), dbOf frame)) =
      (List.range n).map fun i =>
        (((i * FS.toNat : ℕ) : ℚ) / (sr : ℚ),
          dbOf (frameSlice audio FS.toNat i)) := by
    rw [List.filterMap_eq_map_iff_forall_eq_some]
    intro i hi
    have hi' : i < n := List.mem_range.mp hi
    have hne' := frameSlice_ne_nil hfs1 hn' hi'
    simp only [if_neg hne']
  rw [hsame]
  simp [List.map_map, Function.comp]
/-! ### Bounds on the decibel conversion -/
lemma meanSq_nonneg (f : List ℚ) : 0 ≤ meanSq f := by
  unfold meanSq
  apply div_nonneg
  · apply List.sum_nonneg
    intro x hx
    obtain ⟨s, _, rfl⟩ := List.mem_map.mp hx
    positivity
  · positivity

lemma meanSq_le_of_bounded {f : List ℚ} (hb : ∀ s ∈ f, |s| ≤ 2 ^ 15) :
    meanSq f ≤ 2 ^ 30 := by
  unfold meanSq
  rcases eq_or_ne f.length 0 with h0 | h0
  · simp [h0]
  · rw [div_le_iff₀ (by exact_mod_cast Nat.pos_of_ne_zero h0)]
    have hsum : ((f.map fun s => s ^ 2).sum) ≤
        (f.map fun s => s ^ 2).length • (2 ^ 30 : ℚ) := by
      apply List.sum_le_card_nsmul
      intro x hx
      obtain ⟨s, hs, rfl⟩ := List.mem_map.mp hx
      have := hb s hs
      calc s ^ 2 = |s| ^ 2 := (sq_abs s).symm
        _ ≤ (2 ^ 15) ^ 2 := by
            apply pow_le_pow_left₀ (abs_nonneg s) this
        _ = 2 ^ 30 := by norm_num
    simpa [nsmul_eq_mul, mul_comm] using hsum

lemma rmsOf_nonneg (f : List ℚ) : 0 ≤ rmsOf f := Real.sqrt_nonneg _

lemma rmsOf_le_of_bounded {f : List ℚ} (hb : ∀ s ∈ f, |s| ≤ 2 ^ 15) :
    rmsOf f ≤ 2 ^ 15 := by
  unfold rmsOf
  have h := meanSq_le_of_bounded hb
  have h' : ((meanSq f : ℝ)) ≤ 2 ^ 30 := by exact_mod_cast h
  calc Real.sqrt (meanSq f) ≤ Real.sqrt (2 ^ 30) := Real.sqrt_le_sqrt h'
    _ = Real.sqrt ((2 ^ 15) ^ 2) := by norm_num
    _ = 2 ^ 15 := Real.sqrt_sq (by positivity)

lemma dbOf_nonpos {f : List ℚ} (hb : ∀ s ∈ f, |s| ≤ 2 ^ 15) :
    dbOf f ≤ 0 := by
  unfold dbOf
  split
  · norm_num
  · rename_i h
    push_neg at h
    have hpos : (0 : ℝ) < rmsOf f := lt_of_lt_of_le (by positivity) h
    have hle : rmsOf f / 2 ^ 15 ≤ 1 := by
      rw [div_le_one (by positivity)]
      exact rmsOf_le_of_bounded hb
    have := Real.logb_nonpos (b := 10) (x := rmsOf f / 2 ^ 15)
      (by norm_num) (by positivity) hle
    linarith

lemma dbOf_gt (f : List ℚ) : -310 < dbOf f := by
  unfold dbOf
  split
  · norm_num
  · rename_i h
    push_neg at h
    have hpos : (0 : ℝ) < rmsOf f := lt_of_lt_of_le (by positivity) h
    have hx : (10 : ℝ) ^ ((-15 : ℤ) : ℝ) ≤ rmsOf f / 2 ^ 15 := by
      rw [Real.rpow_intCast]
      have h1 : ((10 : ℝ) ^ (-15 : ℤ)) = 1 / 10 ^ 15 := by
        norm_num [zpow_neg]
      rw [h1, div_le_div_iff₀ (by norm_num) (by norm_num)]
      nlinarith [h]
    have hlogb : (-15 : ℝ) ≤ Real.logb 10 (rmsOf f / 2 ^ 15) := by
      have h15 : Real.logb 10 ((10 : ℝ) ^ ((-15 : ℤ) : ℝ)) = ((-15 : ℤ) : ℝ) :=
        Real.logb_rpow (by norm_num) (by norm_num)
      calc (-15 : ℝ) = Real.logb 10 ((10 : ℝ) ^ ((-15 : ℤ) : ℝ)) := by
            rw [h15]; norm_num
        _ ≤ Real.logb 10 (rmsOf f / 2 ^ 15) :=
            Real.logb_le_logb_of_le (by norm_num)
              (Real.rpow_pos_of_pos (by norm_num) _) hx
    linarith
/-! ### Silence, membership and error characterization -/
lemma meanSq_of_all_zero {f : List ℚ} (h : ∀ s ∈ f, s = 0) : meanSq f = 0 := by
  unfold meanSq
  have : (f.map fun s => s ^ 2).sum = 0 := by
    apply List.sum_eq_zero
    intro x hx
    obtain ⟨s, hs, rfl⟩ := List.mem_map.mp hx
    rw [h s hs]; norm_num
  rw [this, zero_div]

lemma dbOf_of_all_zero {f : List ℚ} (h : ∀ s ∈ f, s = 0) : dbOf f = -100 := by
  unfold dbOf rmsOf
  rw [meanSq_of_all_zero h]
  norm_num

lemma mem_frameSlice {audio : List ℚ} {fs i : ℕ} {s : ℚ}
    (h : s ∈ frameSlice audio fs i) : s ∈ audio :=
  List.mem_of_mem_take (List.mem_of_mem_drop h)

lemma compute_loudness_mem_values {audio : List ℚ} {sr : ℤ} {fd : ℚ}
    {t : List ℚ} {v : List ℝ} (h : compute_loudness audio sr fd = .ok (t, v))
    {x : ℝ} (hx : x ∈ v) :
    ∃ i, (frameSlice audio (pyTrunc ((sr : ℚ) * fd)).toNat i).length ≠ 0 ∧
      x = dbOf (frameSlice audio (pyTrunc ((sr : ℚ) * fd)).toNat i) := by
  rw [compute_loudness] at h
  split at h
  · simp at h
  · simp only [Except.ok.injEq, Prod.mk.injEq] at h
    obtain ⟨-, hv⟩ := h
    rw [← hv] at hx
    obtain ⟨p, hp, rfl⟩ := List.mem_map.mp hx
    obtain ⟨a, -, ha⟩ := List.mem_filterMap.mp hp
    by_cases hlen : (frameSlice audio (pyTrunc ((sr : ℚ) * fd)).toNat a).length = 0
    · simp only [hlen, if_pos] at ha
      simp at ha
    · simp only [if_neg hlen] at ha
      obtain rfl := Option.some.inj ha
      exact ⟨a, hlen, rfl⟩

lemma compute_loudness_error_iff (audio : List ℚ) (sr : ℤ) (fd : ℚ) :
    (∃ e, compute_loudness audio sr fd = .error e) ↔
      pyTrunc ((sr : ℚ) * fd) = 0 := by
  rw [compute_loudness]
  split
  · rename_i h
    simp [h]
  · rename_i h
    simp [h]

lemma compute_loudness_of_neg {audio : List ℚ} {sr : ℤ} {fd : ℚ}
    (h : pyTrunc ((sr : ℚ) * fd) < 0) :
    compute_loudness audio sr fd = .ok ([], []) := by
  rw [compute_loudness]
  rw [if_neg (by omega)]
  have hdiv : (audio.length : ℚ) / ((pyTrunc ((sr : ℚ) * fd) : ℤ) : ℚ) ≤ 0 := by
    apply div_nonpos_of_nonneg_of_nonpos
    · positivity
    · exact_mod_cast le_of_lt h
  have hceil : (⌈(audio.length : ℚ) / ((pyTrunc ((sr : ℚ) * fd) : ℤ) : ℚ)⌉).toNat = 0 := by
    have h0 : (audio.length : ℚ) / ((pyTrunc ((sr : ℚ) * fd) : ℤ) : ℚ) ≤ ((0 : ℤ) : ℚ) := by
      exact_mod_cast hdiv
    have := Int.ceil_le.mpr h0
    omega
  simp [hceil]
/-! ### Evaluating pyTrunc on concrete inputs -/
lemma pyTrunc_of_floor {q : ℚ} {z : ℤ} (h0 : 0 ≤ q) (h : ⌊q⌋ = z) :
    pyTrunc q = z := by
  simp [pyTrunc, if_pos h0, h]

lemma pyTrunc_intCast (z : ℤ) : pyTrunc (z : ℚ) = z := by
  unfold pyTrunc
  split
  · exact Int.floor_intCast z
  · exact Int.ceil_intCast z
/-! ### Claim C2 -/
/-- C2 (amended): the frame size used by `compute_loudness` is
`int(sr * frame_duration)`, truncation toward zero, and the function
fails (with a wrapped error, from the division by zero in the frame
count) exactly when that truncated frame size is `0`; a frame size of
at least `1` always yields a result, and a negative frame size yields
the empty series rather than an error. -/
theorem C2_frame_size (audio : List ℚ) (sr : ℤ) (fd : ℚ) :
    ((∃ e, compute_loudness audio sr fd = .error e) ↔
      pyTrunc ((sr : ℚ) * fd) = 0) ∧
    (pyTrunc ((sr : ℚ) * fd) < 0 →
      compute_loudness audio sr fd = .ok ([], [])) ∧
    (1 ≤ pyTrunc ((sr : ℚ) * fd) →
      ∃ out, compute_loudness audio sr fd = .ok out) :=
  ⟨compute_loudness_error_iff audio sr fd,
   fun h => compute_loudness_of_neg h,
   fun h => ⟨_, compute_loudness_ok h⟩⟩

theorem C2_witness :
    pyTrunc (((1 : ℤ) : ℚ) * (-1 : ℚ)) < 0 ∧
      compute_loudness [1] 1 (-1) = .ok ([], []) := by
  have hv : pyTrunc (((1 : ℤ) : ℚ) * (-1 : ℚ)) = -1 := by
    rw [show (((1 : ℤ) : ℚ) * (-1 : ℚ)) = ((-1 : ℤ) : ℚ) by norm_num]
    exact pyTrunc_intCast (-1)
  exact ⟨by omega, (C2_frame_size [1] 1 (-1)).2.1 (by omega)⟩

theorem C2_counterexample :
    round (((10 : ℤ) : ℚ) * (17 / 100)) = 2 ∧
    pyTrunc (((10 : ℤ) : ℚ) * (17 / 100)) = 1 ∧
    (compute_loudness [1, 1] 10 (17 / 100)).toOption.map
        (fun p => p.1) = some [0, 1 / 10] ∧
    (⌈((([1, 1] : List ℚ).length : ℚ)) /
        ((round (((10 : ℤ) : ℚ) * (17 / 100)) : ℤ) : ℚ)⌉).toNat = 1 ∧
    ([0, (1 : ℚ) / 10].length : ℕ) ≠ 1 := by
  have hpt : pyTrunc (((10 : ℤ) : ℚ) * (17 / 100)) = 1 :=
    pyTrunc_of_floor (by norm_num)
      (by rw [show (((10 : ℤ) : ℚ) * (17 / 100)) = 17 / 10 by norm_num,
            Int.floor_eq_iff]
          norm_num)
  have hrd : round (((10 : ℤ) : ℚ) * (17 / 100)) = 2 := by
    rw [show (((10 : ℤ) : ℚ) * (17 / 100)) = 17 / 10 by norm_num, round_eq,
      show ((17 : ℚ) / 10 + 1 / 2) = 22 / 10 by norm_num,
      Int.floor_eq_iff]
    norm_num
  have hfs : (pyTrunc (((10 : ℤ) : ℚ) * (17 / 100))).toNat = 1 := by
    rw [hpt]; rfl
  refine ⟨hrd, hpt, ?_, ?_, by norm_num⟩
  · rw [compute_loudness_ok (by omega)]
    rw [hfs]
    have hc : (⌈(([1, 1] : List ℚ).length : ℚ) / ((1 : ℕ) : ℚ)⌉).toNat = 2 := by
      norm_num
      rfl
    rw [hc]
    simp only [List.range_succ, List.range_zero, List.map_cons, List.map_nil,
      List.nil_append, List.cons_append, Except.toOption, Option.map_some]
    norm_num
  · rw [hrd]
    have h1 : (⌈((([1, 1] : List ℚ).length : ℚ)) / ((2 : ℤ) : ℚ)⌉).toNat = 1 := by
      norm_num
    exact h1
/-! ### Claims C4 and C5 -/
lemma get_map_range {β : Type} (f : ℕ → β) {n i : ℕ}
    (hi : i < ((List.range n).map f).length) :
    ((List.range n).map f).get ⟨i, hi⟩ = f i := by
  simp only [List.get_eq_getElem, List.getElem_map, List.getElem_range]

/-- C4: with frame size at least `1`, `compute_loudness` emits exactly
`ceil(len(audio) / frame_size)` frames (no frame is ever skipped, so the
skip subtraction is vacuous), `times` and `values_db` have that common
length, and the value of frame `i` is the decibel value of the slice
`audio[i*frame_size : min((i+1)*frame_size, len(audio))]`. -/
theorem C4_frame_count (audio : List ℚ) (sr : ℤ) (fd : ℚ)
    (hfs : 1 ≤ pyTrunc ((sr : ℚ) * fd)) (t : List ℚ) (v : List ℝ)
    (h : compute_loudness audio sr fd = .ok (t, v)) :
    t.length =
      (⌈(audio.length : ℚ) / ((pyTrunc ((sr : ℚ) * fd) : ℤ) : ℚ)⌉).toNat ∧
    v.length = t.length ∧
    ∀ i (hi : i < v.length),
      v.get ⟨i, hi⟩ = dbOf (frameSlice audio (pyTrunc ((sr : ℚ) * fd)).toNat i) := by
  rw [compute_loudness_ok hfs] at h
  simp only [Except.ok.injEq, Prod.mk.injEq] at h
  obtain ⟨ht, hv⟩ := h
  subst ht
  subst hv
  have hcast : (((pyTrunc ((sr : ℚ) * fd)).toNat : ℚ)) =
      ((pyTrunc ((sr : ℚ) * fd) : ℤ) : ℚ) := by
    exact_mod_cast Int.toNat_of_nonneg (by omega)
  refine ⟨?_, ?_, ?_⟩
  · simp [hcast]
  · simp
  · intro i hi
    simp only [List.get_eq_getElem, List.getElem_map, List.getElem_range]

theorem C4_witness :
    (1 : ℤ) ≤ pyTrunc (((2 : ℤ) : ℚ) * 1) ∧
    compute_loudness ([1, 2, 3] : List ℚ) 2 1 =
      .ok ([0, 1],
        [dbOf (frameSlice [1, 2, 3] 2 0), dbOf (frameSlice [1, 2, 3] 2 1)]) ∧
    ([0, 1] : List ℚ).length =
      (⌈((([1, 2, 3] : List ℚ).length : ℚ)) /
        ((pyTrunc (((2 : ℤ) : ℚ) * 1) : ℤ) : ℚ)⌉).toNat := by
  have hpt : pyTrunc (((2 : ℤ) : ℚ) * 1) = 2 := by
    rw [show (((2 : ℤ) : ℚ) * 1) = ((2 : ℤ) : ℚ) by norm_num]
    exact pyTrunc_intCast 2
  have hok : compute_loudness ([1, 2, 3] : List ℚ) 2 1 =
      .ok ([0, 1],
        [dbOf (frameSlice [1, 2, 3] 2 0), dbOf (frameSlice [1, 2, 3] 2 1)]) := by
    rw [compute_loudness_ok (by omega)]
    rw [show (pyTrunc (((2 : ℤ) : ℚ) * 1)).toNat = 2 by rw [hpt]; rfl]
    have h2 : (⌈(3 : ℚ) / 2⌉ : ℤ) = 2 := by
      rw [Int.ceil_eq_iff]
      norm_num
    have hc : (⌈(([1, 2, 3] : List ℚ).length : ℚ) / ((2 : ℕ) : ℚ)⌉).toNat = 2 := by
      norm_num
      rw [h2]
      rfl
    rw [hc]
    simp only [List.range_succ, List.range_zero, List.map_cons, List.map_nil,
      List.nil_append, List.cons_append]
    norm_num
  exact ⟨by omega, hok,
    (C4_frame_count [1, 2, 3] 2 1 (by omega) _ _ hok).1⟩

/-- C5 (amended): `times[i] = (i * frame_size) / sr` (the start sample
index of frame `i` over the sample rate), the sequence is strictly
increasing, and consecutive entries (including at the last frame) are
spaced by exactly `frame_size / sr` - which equals `frame_duration` only
when `sr * frame_duration` is an integer, since the frame size is the
truncation of that product. -/
theorem C5_times (audio : List ℚ) (sr : ℤ) (fd : ℚ) (hsr : 0 < sr)
    (hfs : 1 ≤ pyTrunc ((sr : ℚ) * fd)) (t : List ℚ) (v : List ℝ)
    (h : compute_loudness audio sr fd = .ok (t, v)) :
    (∀ i (hi : i < t.length),
      t.get ⟨i, hi⟩ =
        ((i * (pyTrunc ((sr : ℚ) * fd)).toNat : ℕ) : ℚ) / ((sr : ℤ) : ℚ)) ∧
    (∀ i (hi : i + 1 < t.length),
      t.get ⟨i, by omega⟩ < t.get ⟨i + 1, hi⟩) ∧
    (∀ i (hi : i + 1 < t.length),
      t.get ⟨i + 1, hi⟩ - t.get ⟨i, by omega⟩ =
        ((pyTrunc ((sr : ℚ) * fd) : ℤ) : ℚ) / ((sr : ℤ) : ℚ)) ∧
    (((pyTrunc ((sr : ℚ) * fd) : ℤ) : ℚ) = (sr : ℚ) * fd →
      ((pyTrunc ((sr : ℚ) * fd) : ℤ) : ℚ) / ((sr : ℤ) : ℚ) = fd) := by
  rw [compute_loudness_ok hfs] at h
  simp only [Except.ok.injEq, Prod.mk.injEq] at h
  obtain ⟨ht, hv⟩ := h
  subst ht
  subst hv
  have hsr0 : ((sr : ℤ) : ℚ) ≠ 0 := by
    exact_mod_cast ne_of_gt hsr
  have hsrpos : (0 : ℚ) < ((sr : ℤ) : ℚ) := by exact_mod_cast hsr
  have hcast : (((pyTrunc ((sr : ℚ) * fd)).toNat : ℚ)) =
      ((pyTrunc ((sr : ℚ) * fd) : ℤ) : ℚ) := by
    exact_mod_cast Int.toNat_of_nonneg (by omega)
  have hfs1 : (1 : ℚ) ≤ (((pyTrunc ((sr : ℚ) * fd)).toNat : ℕ) : ℚ) := by
    have : 1 ≤ (pyTrunc ((sr : ℚ) * fd)).toNat := by omega
    exact_mod_cast this
  refine ⟨fun i hi => get_map_range _ hi, ?_, ?_, ?_⟩
  · intro i hi
    rw [get_map_range, get_map_range]
    apply div_lt_div_of_pos_right ?_ hsrpos
    push_cast
    nlinarith [hfs1]
  · intro i hi
    rw [get_map_range, get_map_range, div_sub_div_same]
    rw [← hcast]
    push_cast
    ring_nf
  · intro hint
    rw [hint]
    field_simp
theorem C5_witness :
    compute_loudness ([1, 2, 3] : List ℚ) 2 1 =
      .ok ([0, 1],
        [dbOf (frameSlice [1, 2, 3] 2 0), dbOf (frameSlice [1, 2, 3] 2 1)]) ∧
    ([0, 1] : List ℚ).get ⟨1, by norm_num⟩ -
        ([0, 1] : List ℚ).get ⟨0, by norm_num⟩ =
      ((pyTrunc (((2 : ℤ) : ℚ) * 1) : ℤ) : ℚ) / (((2 : ℤ) : ℤ) : ℚ) := by
  have hpt : pyTrunc (((2 : ℤ) : ℚ) * 1) = 2 := by
    rw [show (((2 : ℤ) : ℚ) * 1) = ((2 : ℤ) : ℚ) by norm_num]
    exact pyTrunc_intCast 2
  have hok : compute_loudness ([1, 2, 3] : List ℚ) 2 1 =
      .ok ([0, 1],
        [dbOf (frameSlice [1, 2, 3] 2 0), dbOf (frameSlice [1, 2, 3] 2 1)]) := by
    rw [compute_loudness_ok (by omega)]
    rw [show (pyTrunc (((2 : ℤ) : ℚ) * 1)).toNat = 2 by rw [hpt]; rfl]
    have h2 : (⌈(3 : ℚ) / 2⌉ : ℤ) = 2 := by
      rw [Int.ceil_eq_iff]
      norm_num
    have hc : (⌈(([1, 2, 3] : List ℚ).length : ℚ) / ((2 : ℕ) : ℚ)⌉).toNat = 2 := by
      norm_num
      rw [h2]
      rfl
    rw [hc]
    simp only [List.range_succ, List.range_zero, List.map_cons, List.map_nil,
      List.nil_append, List.cons_append]
    norm_num
  exact ⟨hok,
    (C5_times [1, 2, 3] 2 1 (by norm_num) (by omega) _ _ hok).2.2.1 0 (by norm_num)⟩

theorem C5_counterexample :
    (compute_loudness [0, 0] 3 (1 / 2)).toOption.map (fun p => p.1) =
      some [0, 1 / 3] ∧
    ((1 : ℚ) / 3 - 0) ≠ 1 / 2 := by
  have hpt : pyTrunc (((3 : ℤ) : ℚ) * (1 / 2)) = 1 :=
    pyTrunc_of_floor (by norm_num)
      (by
        rw [show (((3 : ℤ) : ℚ) * (1 / 2)) = 3 / 2 by norm_num, Int.floor_eq_iff]
        norm_num)
  constructor
  · rw [compute_loudness_ok (by omega)]
    rw [show (pyTrunc (((3 : ℤ) : ℚ) * (1 / 2))).toNat = 1 by rw [hpt]; rfl]
    have hc : (⌈(([0, 0] : List ℚ).length : ℚ) / ((1 : ℕ) : ℚ)⌉).toNat = 2 := by
      norm_num
      rfl
    rw [hc]
    simp only [List.range_succ, List.range_zero, List.map_cons, List.map_nil,
      List.nil_append, List.cons_append, Except.toOption, Option.map_some]
    norm_num
  · norm_num
/-! ### Claims C1 and C3 -/
/-- C1 (amended): for physically bounded samples (absolute value at most
`2^15`) every emitted decibel value is at most `0`, and every value is
either the floor `-100` or `20 * log10(rms / 2^15)`; but the interval
`[-100, 0]` of the original claim is wrong: values strictly below `-100`
occur (they are only bounded below by `20 * log10(1e-10 / 2^15) > -310`),
because the `-100` floor applies only when `rms < 1e-10`. -/
theorem C1_db_range (audio : List ℚ) (sr : ℤ) (fd : ℚ) (t : List ℚ)
    (v : List ℝ) (h : compute_loudness audio sr fd = .ok (t, v))
    (hb : ∀ s ∈ audio, |s| ≤ 2 ^ 15) :
    ∀ x ∈ v, (x ≤ 0 ∧ -310 < x) ∧
      (x = -100 ∨ ∃ i, x = 20 * Real.logb 10
        (rmsOf (frameSlice audio (pyTrunc ((sr : ℚ) * fd)).toNat i) / 2 ^ 15)) := by
  intro x hx
  obtain ⟨i, hlen, rfl⟩ := compute_loudness_mem_values h hx
  refine ⟨⟨dbOf_nonpos (fun s hs => hb s (mem_frameSlice hs)), dbOf_gt _⟩, ?_⟩
  unfold dbOf
  split
  · exact Or.inl rfl
  · exact Or.inr ⟨i, rfl⟩

theorem C1_witness :
    dbOf ([0] : List ℚ) ≤ 0 ∧ -310 < dbOf ([0] : List ℚ) := by
  have hok : compute_loudness ([0] : List ℚ) 1 1 = .ok ([0], [dbOf [0]]) := by
    have hpt : pyTrunc (((1 : ℤ) : ℚ) * 1) = 1 := by
      rw [show (((1 : ℤ) : ℚ) * 1) = ((1 : ℤ) : ℚ) by norm_num]
      exact pyTrunc_intCast 1
    rw [compute_loudness_ok (by omega)]
    rw [show (pyTrunc (((1 : ℤ) : ℚ) * 1)).toNat = 1 by rw [hpt]; rfl]
    have hc : (⌈(([0] : List ℚ).length : ℚ) / ((1 : ℕ) : ℚ)⌉).toNat = 1 := by
      norm_num
    rw [hc]
    simp [List.range_succ, frameSlice]
  exact ((C1_db_range [0] 1 1 [0] [dbOf [0]] hok (by norm_num)) (dbOf [0])
    (by norm_num)).1

theorem C1_counterexample :
    (∀ s ∈ ([1 / 100000] : List ℚ), |s| ≤ 2 ^ 15) ∧
    compute_loudness [1 / 100000] 1 1 = .ok ([0], [dbOf [1 / 100000]]) ∧
    dbOf ([1 / 100000] : List ℚ) < -100 := by
  have hok : compute_loudness ([1 / 100000] : List ℚ) 1 1 =
      .ok ([0], [dbOf [1 / 100000]]) := by
    have hpt : pyTrunc (((1 : ℤ) : ℚ) * 1) = 1 := by
      rw [show (((1 : ℤ) : ℚ) * 1) = ((1 : ℤ) : ℚ) by norm_num]
      exact pyTrunc_intCast 1
    rw [compute_loudness_ok (by omega)]
    rw [show (pyTrunc (((1 : ℤ) : ℚ) * 1)).toNat = 1 by rw [hpt]; rfl]
    have hc : (⌈(([1 / 100000] : List ℚ).length : ℚ) / ((1 : ℕ) : ℚ)⌉).toNat = 1 := by
      norm_num
    rw [hc]
    simp [List.range_succ, frameSlice]
  have hms : meanSq ([1 / 100000] : List ℚ) = 1 / 10 ^ 10 := by
    norm_num [meanSq]
  have hrms : rmsOf ([1 / 100000] : List ℚ) = 1 / 10 ^ 5 := by
    unfold rmsOf
    rw [hms]
    rw [show (((1 / 10 ^ 10 : ℚ) : ℝ)) = (1 / 10 ^ 5 : ℝ) ^ 2 by norm_num]
    exact Real.sqrt_sq (by norm_num)
  have hdb : dbOf ([1 / 100000] : List ℚ) < -100 := by
    unfold dbOf
    rw [hrms, if_neg (by norm_num)]
    have hlog : Real.logb 10 ((1 / 10 ^ 5 : ℝ) / 2 ^ 15) < -5 := by
      rw [Real.logb_lt_iff_lt_rpow (by norm_num) (by norm_num)]
      rw [show ((-5 : ℝ)) = ((-5 : ℤ) : ℝ) by norm_num, Real.rpow_intCast]
      rw [show ((10 : ℝ) ^ (-5 : ℤ)) = 1 / 10 ^ 5 by norm_num [zpow_neg]]
      norm_num
    linarith
  exact ⟨by norm_num [abs_le], hok, hdb⟩

/-- C3: every emitted value is the decibel conversion of its frame,
where the conversion yields exactly `-100` when `rms < 1e-10` and
`20 * log10(rms / 2^15)` otherwise (the full-scale constant is the fixed
`2^15`); in particular a waveform of all-zero samples yields `-100` for
every frame. -/
theorem C3_db_formula (audio : List ℚ) (sr : ℤ) (fd : ℚ) (t : List ℚ)
    (v : List ℝ) (h : compute_loudness audio sr fd = .ok (t, v)) :
    (∀ x ∈ v, ∃ i,
      x = dbOf (frameSlice audio (pyTrunc ((sr : ℚ) * fd)).toNat i)) ∧
    (∀ f : List ℚ,
      (rmsOf f < 1 / 10 ^ 10 → dbOf f = -100) ∧
      (¬ rmsOf f < 1 / 10 ^ 10 →
        dbOf f = 20 * Real.logb 10 (rmsOf f / 2 ^ 15))) ∧
    ((∀ s ∈ audio, s = 0) → ∀ x ∈ v, x = -100) := by
  refine ⟨?_, ?_, ?_⟩
  · intro x hx
    obtain ⟨i, -, rfl⟩ := compute_loudness_mem_values h hx
    exact ⟨i, rfl⟩
  · intro f
    constructor
    · intro hf
      unfold dbOf
      rw [if_pos hf]
    · intro hf
      unfold dbOf
      rw [if_neg hf]
  · intro hz x hx
    obtain ⟨i, -, rfl⟩ := compute_loudness_mem_values h hx
    exact dbOf_of_all_zero (fun s hs => hz s (mem_frameSlice hs))

theorem C3_witness :
    compute_loudness ([0, 0] : List ℚ) 1 1 = .ok ([0, 1], [dbOf [0], dbOf [0]]) ∧
    dbOf ([0] : List ℚ) = -100 := by
  have hpt : pyTrunc (((1 : ℤ) : ℚ) * 1) = 1 := by
    rw [show (((1 : ℤ) : ℚ) * 1) = ((1 : ℤ) : ℚ) by norm_num]
    exact pyTrunc_intCast 1
  have hok : compute_loudness ([0, 0] : List ℚ) 1 1 =
      .ok ([0, 1], [dbOf [0], dbOf [0]]) := by
    rw [compute_loudness_ok (by omega)]
    rw [show (pyTrunc (((1 : ℤ) : ℚ) * 1)).toNat = 1 by rw [hpt]; rfl]
    have hc : (⌈(([0, 0] : List ℚ).length : ℚ) / ((1 : ℕ) : ℚ)⌉).toNat = 2 := by
      norm_num
      rfl
    rw [hc]
    simp only [List.range_succ, List.range_zero, List.map_cons, List.map_nil,
      List.nil_append, List.cons_append]
    norm_num [frameSlice]
  refine ⟨hok, ?_⟩
  have := (C3_db_formula [0, 0] 1 1 _ _ hok).2.2 (by norm_num) (dbOf [0])
  apply this
  norm_num
/-! ### Claim C6: the smoother -/
lemma npConvolveFull_length (a v : List ℚ) :
    (npConvolveFull a v).length = a.length + v.length - 1 := by
  simp [npConvolveFull]

lemma npConvolveFull_getElem (a v : List ℚ) (m : ℕ)
    (hm : m < (npConvolveFull a v).length) :
    (npConvolveFull a v)[m] =
      ∑ j ∈ Finset.range a.length,
        if j ≤ m then a.getD j 0 * v.getD (m - j) 0 else 0 := by
  simp [npConvolveFull]

lemma getD_replicate (w : ℕ) (c : ℚ) (m : ℕ) (d : ℚ) :
    (List.replicate w c).getD m d = if m < w then c else d := by
  by_cases h : m < w
  · rw [if_pos h]
    rw [List.getD_eq_getElem _ _ (by simpa using h)]
    simp
  · rw [if_neg h]
    apply List.getD_eq_default
    simpa using Nat.le_of_not_lt h

example : moving_average ([1] : List ℚ) 3 = .ok [1/3, 1/3, 1/3] := by
  rw [moving_average, if_neg (by norm_num)]
  rw [npConvolveSame]
  norm_num [npConvolveFull, List.ofFn_succ, Finset.sum_range_one, List.getD]
lemma npConvolveSame_centered (data : List ℚ) (k : ℕ)
    (h : 2 * k + 1 ≤ data.length) :
    (npConvolveSame data
        (List.replicate (2 * k + 1) (((2 * k + 1 : ℕ) : ℚ)⁻¹))).length =
      data.length ∧
    ∀ i, i < data.length →
      (npConvolveSame data
          (List.replicate (2 * k + 1) (((2 * k + 1 : ℕ) : ℚ)⁻¹))).getD i 0 =
        (∑ j ∈ (Finset.range data.length).filter
            (fun j => i - k ≤ j ∧ j ≤ i + k), data.getD j 0) /
          ((2 * k + 1 : ℕ) : ℚ) := by
  set n := data.length with hn
  set w := 2 * k + 1 with hw
  set kern : List ℚ := List.replicate w ((w : ℚ)⁻¹) with hkern
  clear_value n w kern
  have hkl : kern.length = w := by
    rw [hkern]
    exact List.length_replicate w _
  have hfl : (npConvolveFull data kern).length = n + 2 * k := by
    rw [npConvolveFull_length, hkl]
    omega
  have hmin : min n kern.length = w := by
    rw [hkl]
    omega
  have hmax : max n kern.length = n := by
    rw [hkl]
    omega
  have hdropidx : (min n kern.length - 1) / 2 = k := by
    rw [hmin]
    omega
  have hlen : (npConvolveSame data kern).length = n := by
    simp only [npConvolveSame, ← hn]
    rw [List.length_take, List.length_drop, hdropidx, hmax, hfl]
    omega
  refine ⟨hlen, ?_⟩
  intro i hi
  have hi2 : i < (npConvolveSame data kern).length := by rw [hlen]; exact hi
  have hki : k + i < (npConvolveFull data kern).length := by rw [hfl]; omega
  rw [List.getD_eq_getElem _ _ hi2]
  have hstep1 : (npConvolveSame data kern)[i] =
      (npConvolveFull data kern)[k + i] := by
    simp only [npConvolveSame, ← hn]
    rw [List.getElem_take]
    rw [List.getElem_drop]
    congr 1
    rw [hdropidx]
  rw [hstep1, npConvolveFull_getElem]
  have hterm : ∀ j ∈ Finset.range n,
      (if j ≤ k + i then data.getD j 0 * kern.getD (k + i - j) 0 else 0) =
        (if i - k ≤ j ∧ j ≤ i + k then data.getD j 0 * ((w : ℚ)⁻¹) else 0) := by
    intro j hj
    rw [hkern, getD_replicate]
    split_ifs
    all_goals first | rfl | (exfalso; omega) | rw [mul_zero]
  rw [← hn, Finset.sum_congr rfl hterm]
  rw [← Finset.sum_filter]
  rw [← Finset.sum_mul]
  rw [div_eq_mul_inv]
/-- C6 (amended): for an odd window `2k+1` that does not exceed the
series length, `moving_average` returns a series of identical length
whose entry `i` is the sum of the entries at indices `max(0, i-k)..i+k`
(intersected with the valid indices) divided by the full window size
`2k+1` - the zero-padded centered mean - and window size `1` is the
identity.  (The original length claim fails when the window exceeds the
series length: `np.convolve` in mode same then returns the window
length.) -/
theorem C6_moving_average (data : List ℚ) (k : ℕ)
    (h : 2 * k + 1 ≤ data.length) :
    ∃ out, moving_average data (2 * k + 1) = .ok out ∧
      out.length = data.length ∧
      (∀ i, i < data.length →
        out.getD i 0 =
          (∑ j ∈ (Finset.range data.length).filter
              (fun j => i - k ≤ j ∧ j ≤ i + k), data.getD j 0) /
            ((2 * k + 1 : ℕ) : ℚ)) ∧
      (k = 0 → out = data) := by
  have hne : ¬ (data.length = 0 ∨ 2 * k + 1 = 0) := by omega
  obtain ⟨hlen, hget⟩ := npConvolveSame_centered data k h
  refine ⟨_, ?_, hlen, hget, ?_⟩
  · unfold moving_average
    rw [if_neg hne]
  · intro hk
    subst hk
    apply List.ext_getElem
    · rw [hlen]
    · intro i hi1 hi2
      have hd := hget i hi2
      rw [List.getD_eq_getElem _ _ hi1] at hd
      rw [hd]
      have hfilter : (Finset.range data.length).filter
          (fun j => i - 0 ≤ j ∧ j ≤ i + 0) = {i} := by
        ext j
        simp only [Finset.mem_filter, Finset.mem_range, Finset.mem_singleton]
        omega
      rw [hfilter, Finset.sum_singleton]
      rw [List.getD_eq_getElem _ _ hi2]
      norm_num

theorem C6_witness :
    moving_average ([1, 2, 3] : List ℚ) (2 * 1 + 1) = .ok [1, 2, 5 / 3] ∧
    ([1, 2, (5 : ℚ) / 3] : List ℚ).length = ([1, 2, 3] : List ℚ).length := by
  have hcomp : moving_average ([1, 2, 3] : List ℚ) (2 * 1 + 1) =
      .ok [1, 2, 5 / 3] := by
    rw [moving_average, if_neg (by norm_num)]
    rw [npConvolveSame]
    have h3 : (List.replicate 3 ((1 : ℚ) / 3))[3]? = none := rfl
    norm_num [npConvolveFull, List.ofFn_succ, Finset.sum_range_succ, List.getD, h3]
  obtain ⟨out, h1, h2, -, -⟩ := C6_moving_average [1, 2, 3] 1 (by norm_num)
  have hout : out = [1, 2, 5 / 3] := by
    rw [hcomp] at h1
    exact (Except.ok.inj h1).symm
  subst hout
  exact ⟨hcomp, h2⟩

theorem C6_counterexample :
    moving_average ([1] : List ℚ) 3 = .ok [1 / 3, 1 / 3, 1 / 3] ∧
    ([(1 : ℚ) / 3, 1 / 3, 1 / 3] : List ℚ).length ≠ ([1] : List ℚ).length := by
  constructor
  · rw [moving_average, if_neg (by norm_num)]
    rw [npConvolveSame]
    norm_num [npConvolveFull, List.ofFn_succ, Finset.sum_range_one, List.getD]
  · norm_num
/-! ### Claim C7: the highlight mask -/
/-- C7: for equal-length `times`/`values_db`, the highlight condition
mask has the same length and is true at `i` exactly when
`times[i]` lies in `[start_time, end_time]` and `values_db[i]` is above
the threshold (when `above`) or below it (otherwise); a spec whose time
range meets no `times[i]` yields an all-false mask. -/
theorem C7_highlight_mask (times values : List ℚ) (s : HighlightSpec ℚ)
    (hlen : times.length = values.length) :
    (highlight_condition times values s).length = times.length ∧
    (∀ i, i < times.length →
      ((highlight_condition times values s).getD i false = true ↔
        (s.start_time ≤ times.getD i 0 ∧ times.getD i 0 ≤ s.end_time ∧
          (if s.above then s.threshold < values.getD i 0
           else values.getD i 0 < s.threshold)))) ∧
    ((∀ i, i < times.length →
        ¬ (s.start_time ≤ times.getD i 0 ∧ times.getD i 0 ≤ s.end_time)) →
      ∀ b ∈ highlight_condition times values s, b = false) := by
  have hzlen : (times.zip values).length = times.length := by
    rw [List.length_zip, hlen, min_self]
  have hmlen : (highlight_condition times values s).length = times.length := by
    rw [highlight_condition, List.length_map, hzlen]
  refine ⟨hmlen, ?_, ?_⟩
  · intro i hi
    have hiv : i < values.length := by omega
    have him : i < (highlight_condition times values s).length := by omega
    rw [List.getD_eq_getElem _ _ him]
    rw [List.getD_eq_getElem _ _ hi, List.getD_eq_getElem _ _ hiv]
    simp only [highlight_condition, List.getElem_map, List.getElem_zip]
    by_cases hab : s.above = true
    · simp only [hab, if_true, Bool.and_eq_true, decide_eq_true_eq]
      tauto
    · have hab2 : s.above = false := by
        revert hab
        cases s.above
        · intro h2
          rfl
        · intro h2
          exact absurd rfl h2
      simp only [hab2, Bool.false_eq_true, if_false, Bool.and_eq_true,
        decide_eq_true_eq]
      tauto
  · intro hnone b hb
    obtain ⟨i, hi, rfl⟩ := List.mem_iff_getElem.mp hb
    have hit : i < times.length := by
      rw [hmlen] at hi
      exact hi
    have hne := hnone i hit
    rw [List.getD_eq_getElem _ _ hit] at hne
    simp only [highlight_condition, List.getElem_map, List.getElem_zip]
    by_cases hab : s.above = true
    · simp only [hab, if_true, Bool.and_eq_false_iff,
        decide_eq_false_iff_not]
      tauto
    · have hab2 : s.above = false := by
        revert hab
        cases s.above
        · intro h2
          rfl
        · intro h2
          exact absurd rfl h2
      simp only [hab2, Bool.false_eq_true, if_false, Bool.and_eq_false_iff,
        decide_eq_false_iff_not]
      tauto
theorem C7_witness :
    highlight_condition ([0, 10] : List ℚ) ([-50, -10] : List ℚ)
        ⟨2, 5, -30, "red", 3 / 10, false⟩ = List.replicate 2 false := by
  have h := C7_highlight_mask [0, 10] [-50, -10]
    ⟨2, 5, -30, "red", 3 / 10, false⟩ rfl
  rw [List.eq_replicate_iff]
  constructor
  · rw [h.1]
    rfl
  · apply h.2.2
    intro i hi
    have hi2 : i < 2 := by simpa using hi
    interval_cases i
    · norm_num [List.getD]
    · norm_num [List.getD]
/-! ### Claims C8 and C10: the renderer -/
lemma plot_overlays_eq {α : Type} [LinearOrder α]
    (colorOk : String → Except String Unit) (times loudness : List α)
    (l : List (HighlightSpec α)) :
    ((l.map fun s => (s, highlight_audio_section colorOk times loudness s)).filterMap
        fun p =>
          match p.2 with
          | .ok m => some (p.1, m)
          | .error _ => none) =
      (l.filter fun s => (colorOk s.color).isOk).map
        fun s => (s, highlight_condition times loudness s) := by
  induction l with
  | nil => rfl
  | cons a l ih =>
    rw [List.map_cons, List.filterMap_cons, List.filter_cons]
    rcases hc : colorOk a.color with e | u
    · have hh : highlight_audio_section colorOk times loudness a =
          .error ("Error highlighting audio section: " ++ e) := by
        simp only [highlight_audio_section, hc]
      rw [hh]
      simp [Except.isOk, Except.toBool, ih]
    · have hh : highlight_audio_section colorOk times loudness a =
          .ok (highlight_condition times loudness a) := by
        simp only [highlight_audio_section, hc]
      rw [hh]
      simp [Except.isOk, Except.toBool, ih]

lemma plot_counts_eq {α : Type} [LinearOrder α]
    (colorOk : String → Except String Unit) (times loudness : List α)
    (l : List (HighlightSpec α)) :
    ((l.map fun s => (s, highlight_audio_section colorOk times loudness s)).filterMap
        fun p =>
          match p.2 with
          | .ok m => some (p.1, m)
          | .error _ => none).length +
      ((l.map fun s => (s, highlight_audio_section colorOk times loudness s)).filterMap
        fun p =>
          match p.2 with
          | .error e => some ("Warning: Failed to highlight section: " ++ e)
          | .ok _ => none).length = l.length := by
  induction l with
  | nil => rfl
  | cons a l ih =>
    rw [List.map_cons, List.filterMap_cons, List.filterMap_cons, List.length_cons]
    rcases hc : colorOk a.color with e | u
    · have hh : highlight_audio_section colorOk times loudness a =
          .error ("Error highlighting audio section: " ++ e) := by
        simp only [highlight_audio_section, hc]
      rw [hh]
      simp only [List.length_cons]
      omega
    · have hh : highlight_audio_section colorOk times loudness a =
          .ok (highlight_condition times loudness a) := by
        simp only [highlight_audio_section, hc]
      rw [hh]
      simp only [List.length_cons]
      omega
/-- C8: for a nonempty series, `plot_loudness` completes with a log in
which the base curve was drawn, the successfully evaluated specs are all
rendered in order, and every failing spec contributes a warning instead
of aborting: rendered overlays plus warnings account for every spec. -/
theorem C8_spec_isolation {α : Type} [LinearOrder α]
    (colorOk : String → Except String Unit) (saveResult : Except String Unit)
    (times loudness : List α) (save_path : Option String)
    (highlights : List (HighlightSpec α)) (h : times ≠ []) :
    ∃ log,
      plot_loudness colorOk saveResult times loudness save_path highlights =
        .ok log ∧
      log.base_curve = true ∧
      log.overlays =
        (highlights.filter fun s => (colorOk s.color).isOk).map
          (fun s => (s, highlight_condition times loudness s)) ∧
      log.overlays.length + log.warnings.length = highlights.length := by
  have hlast : times.getLast? ≠ none := by
    rw [Ne, List.getLast?_eq_none_iff]
    exact h
  obtain ⟨x, hx⟩ := Option.ne_none_iff_exists'.mp hlast
  unfold plot_loudness
  rw [hx]
  cases save_path with
  | none =>
    exact ⟨_, rfl, rfl, plot_overlays_eq colorOk times loudness highlights,
      plot_counts_eq colorOk times loudness highlights⟩
  | some p =>
    cases saveResult with
    | ok u =>
      exact ⟨_, rfl, rfl, plot_overlays_eq colorOk times loudness highlights,
        plot_counts_eq colorOk times loudness highlights⟩
    | error e =>
      exact ⟨_, rfl, rfl, plot_overlays_eq colorOk times loudness highlights,
        plot_counts_eq colorOk times loudness highlights⟩
theorem C8_witness :
    (([0] : List ℚ) ≠ []) ∧
    (plot_loudness (fun c => if c = "red" then .ok () else .error "bad color")
        (.ok ()) ([0] : List ℚ) [-50] none
        [⟨0, 1, -60, "blue", 3 / 10, false⟩,
         ⟨0, 1, -60, "red", 3 / 10, false⟩]).isOk = true := by
  have hne : ([0] : List ℚ) ≠ [] := by simp
  obtain ⟨log, hlog, -, -, -⟩ := C8_spec_isolation
    (fun c => if c = "red" then .ok () else .error "bad color") (.ok ())
    ([0] : List ℚ) [-50] none
    [⟨0, 1, -60, "blue", 3 / 10, false⟩,
     ⟨0, 1, -60, "red", 3 / 10, false⟩] hne
  refine ⟨hne, ?_⟩
  rw [hlog]
  rfl

/-- C10: called on an empty loudness series, `plot_loudness` fails with
the wrapped rendering error coming from the `times[-1]` read in the
x-axis setup, and produces no artifact. -/
theorem C10_empty_times (colorOk : String → Except String Unit)
    (saveResult : Except String Unit) (save_path : Option String)
    (highlights : List (HighlightSpec ℚ)) :
    plot_loudness colorOk saveResult ([] : List ℚ) ([] : List ℚ)
        save_path highlights =
      .error "Error occurred while plotting loudness: index -1 is out of bounds" :=
  rfl
/-! ### Claim C9: the pipeline -/
/-- C9: `main` never raises; after the `finally` block the temporary
audio asset remains only when it existed and its removal failed (so it
is deleted whenever removal succeeds, on every exit path); and the
logged pipeline outcome is independent of the removal outcome - a
cleanup failure is reported separately and never masks or replaces an
earlier error. -/
theorem C9_cleanup (env : MainEnv) :
    (main env).crashed = false ∧
    (main env).temp_exists_after =
      ((env.temp_initially_exists || env.extract_result.isOk) &&
        !env.remove_result.isOk) ∧
    (∀ r, (main { env with remove_result := r }).error_logged =
      (main env).error_logged) := by
  refine ⟨?_, ?_, ?_⟩
  · unfold main
    rcases env.remove_result with e | u <;>
      cases env.temp_initially_exists || env.extract_result.isOk <;> rfl
  · unfold main
    rcases env.remove_result with e | u <;>
      cases env.temp_initially_exists || env.extract_result.isOk <;> rfl
  · intro r
    unfold main
    rcases r with e' | u' <;> rcases env.remove_result with e | u <;>
      cases env.temp_initially_exists || env.extract_result.isOk <;> rfl
